import Mathlib

/-!
Verification development for the chapp chat system.

This file gives a shallow embedding of the core of the chapp repository:
the wire envelope (`pkg/types/message.go`, `pkg/types/constants.go`), the
chunked asymmetric cipher adapter (`cmd/client/crypto/encryption.go`), the
public-key import routine (client `crypto` package), the connection hub's
broadcast/unregister event handling (`cmd/server/types/server_types.go`),
and the client-side message coordinator (`MessageHandler` in the client
`messaging` package).

Library calls that are external to the repository (RSA-OAEP, base64,
ASN.1/X.509 parsing, JSON marshalling) are abstracted as function
parameters with their documented contracts stated as hypotheses; every
piece of control flow written in the repository itself is translated
directly.
-/

namespace Chapp

/-- A byte, as an element of a Go `[]byte` / `string`. -/
abbrev Byte := Fin 256

/-! ## Envelope data model

From `pkg/types/message.go`: the wire `Message` struct.  The Go
`Recipient` field carries `omitempty`; an absent recipient is the zero
value `""`, which is how the Go code itself tests for it, so a plain
`String` field is a faithful model. -/

/-- The wire envelope (`types.Message` in `pkg/types/message.go`). -/
structure Message where
  type : String
  content : String
  sender : String
  recipient : String
  timestamp : Int
  deriving DecidableEq

/-- `types.MessageTypeSystem` from `pkg/types/constants.go`. -/
def MessageTypeSystem : String := "system"

/-- `types.MessageTypeEncrypted` from `pkg/types/constants.go`. -/
def MessageTypeEncrypted : String := "encrypted_message"

/-- `types.MessageTypePublicKeyShare` from `pkg/types/constants.go`. -/
def MessageTypePublicKeyShare : String := "public_key_share"

/-- `types.MessageTypeRequestKeys` from `pkg/types/constants.go`. -/
def MessageTypeRequestKeys : String := "request_keys"

/-- `types.SystemSender` from `pkg/types/constants.go`. -/
def SystemSender : String := "System"

/-! ## Cipher adapter (`cmd/client/crypto/encryption.go`)

RSA-OAEP and base64 are Go standard-library calls; they enter the model
as function parameters.  `rsaEnc` stands for one `rsa.EncryptOAEP` call
(the random padding stream is abstracted to a deterministic function of
the plaintext; round-trip behaviour does not depend on it, and the call
cannot fail for payloads of at most 190 bytes under RSA-2048 with
SHA-256).  `rsaDec` stands for `rsa.DecryptOAEP`, `b64enc`/`b64dec` for
`base64.StdEncoding` encode/decode.  Ciphertext text is a `List Char`
so that the `strings.Contains`/`Split`/`Join` operations on the `"|"`
delimiter are modelled exactly. -/

/-- The `maxChunkSize` constant of `EncryptMessage` (180 bytes). -/
def maxChunkSize : Nat := 180

/-- `splitMessageIntoChunks` from `cmd/client/crypto/encryption.go`
(lines 82-92): slice the message into consecutive pieces of
`chunkSize` bytes.  The Go loop never terminates for `chunkSize = 0`
(it is only ever called with 180); the model returns `[]` there. -/
def splitMessageIntoChunks (message : List Byte) (chunkSize : Nat) : List (List Byte) :=
  if h0 : message.isEmpty then []
  else if h1 : chunkSize = 0 then []
  else message.take chunkSize :: splitMessageIntoChunks (message.drop chunkSize) chunkSize
termination_by message.length
decreasing_by
  simp only [List.length_drop]
  have hne : message ≠ [] := by
    intro he
    rw [he] at h0
    exact h0 rfl
  have hpos : 0 < message.length := List.length_pos.mpr hne
  omega

/-- `EncryptMessage` from `cmd/client/crypto/encryption.go` (lines
13-40): a message of at most `maxChunkSize` bytes is encrypted directly
and base64-encoded; a longer one is split into `maxChunkSize`-byte
chunks that are encrypted and base64-encoded independently and joined
with the `"|"` delimiter. -/
def EncryptMessage (rsaEnc : List Byte → List Byte) (b64enc : List Byte → List Char)
    (message : List Byte) : List Char :=
  if message.length ≤ maxChunkSize then
    b64enc (rsaEnc message)
  else
    List.intercalate ['|']
      ((splitMessageIntoChunks message maxChunkSize).map (fun chunk => b64enc (rsaEnc chunk)))

/-- The chunk loop of `DecryptMessage` (lines 50-62): base64-decode and
decrypt each chunk in order, stopping at the first failure; `i` is the
loop index used in the error messages. -/
def decryptChunksFrom (rsaDec : List Byte → Except String (List Byte))
    (b64dec : List Char → Except String (List Byte)) :
    Nat → List (List Char) → Except String (List (List Byte))
  | _, [] => .ok []
  | i, chunk :: rest =>
    match b64dec chunk with
    | .error e => .error ("failed to decode encrypted chunk " ++ toString i ++ ": " ++ e)
    | .ok encryptedBytes =>
      match rsaDec encryptedBytes with
      | .error e => .error ("failed to decrypt chunk " ++ toString i ++ ": " ++ e)
      | .ok decrypted =>
        (decryptChunksFrom rsaDec b64dec (i + 1) rest).map (fun ds => decrypted :: ds)

/-- `DecryptMessage` from `cmd/client/crypto/encryption.go` (lines
43-79): if the ciphertext contains the `"|"` delimiter, split on it,
decrypt every chunk and concatenate the plaintexts; otherwise decode
and decrypt the whole string as a single chunk. -/
def DecryptMessage (rsaDec : List Byte → Except String (List Byte))
    (b64dec : List Char → Except String (List Byte))
    (encryptedMessage : List Char) : Except String (List Byte) :=
  if '|' ∈ encryptedMessage then
    match decryptChunksFrom rsaDec b64dec 0 (encryptedMessage.splitOn '|') with
    | .error e => .error e
    | .ok decryptedChunks => .ok decryptedChunks.flatten
  else
    match b64dec encryptedMessage with
    | .error e => .error ("failed to decode encrypted message: " ++ e)
    | .ok encryptedBytes =>
      match rsaDec encryptedBytes with
      | .error e => .error ("failed to decrypt message: " ++ e)
      | .ok decrypted => .ok decrypted

/-- `ImportPublicKey` from the client `crypto` package: base64-decode
the key string, try the SPKI (`x509.ParsePKIXPublicKey`) parse, fall
back to PKCS1 (`x509.ParsePKCS1PublicKey`), and finally require the
result to be an RSA key.  The ASN.1 parsers and the Go interface
type-assertion are abstracted: `AnyKey` models the `any` returned by
the SPKI parser, `asRSA` the `pubKey.(*rsa.PublicKey)` assertion, and
`injectRSA` the assignment of the PKCS1 result (already an RSA key)
into the same interface variable. -/
def ImportPublicKey {AnyKey RSAKey : Type}
    (b64decode : String → Except String (List Byte))
    (parsePKIX : List Byte → Except String AnyKey)
    (parsePKCS1 : List Byte → Except String RSAKey)
    (asRSA : AnyKey → Option RSAKey)
    (injectRSA : RSAKey → AnyKey)
    (keyStr : String) : Except String RSAKey :=
  match b64decode keyStr with
  | .error e => .error ("failed to decode public key: " ++ e)
  | .ok keyBytes =>
    match parsePKIX keyBytes with
    | .ok pubKey =>
      match asRSA pubKey with
      | some rsaPubKey => .ok rsaPubKey
      | none => .error "public key is not RSA"
    | .error _ =>
      match parsePKCS1 keyBytes with
      | .error e => .error ("failed to parse public key (tried both SPKI and PKCS1): " ++ e)
      | .ok pkcs1Key =>
        match asRSA (injectRSA pkcs1Key) with
        | some rsaPubKey => .ok rsaPubKey
        | none => .error "public key is not RSA"

/-! ## Connection hub (`cmd/server/types/server_types.go`)

A registered client is a registry entry with its bounded outbound
channel; the channel is modelled by its buffered contents (`queue`) and
its buffer size (`capacity`), so the non-blocking `select`/`default`
send succeeds exactly when `queue.length < capacity`.  The raw `[]byte`
payloads that flow through the hub are modelled by the parsed `Message`
they marshal to (the hub itself re-parses them only to read `type` and
`sender`). -/

/-- A registered client of the hub (`Client` plus its entry in
`Hub.Clients`). -/
structure Peer where
  username : String
  capacity : Nat
  queue : List Message
  deriving DecidableEq

/-- One iteration of the broadcast fan-out loop of `Hub.Run` (lines
132-145) for a single registered client: the sender of an
`encrypted_message` is skipped (kept, unchanged); otherwise the
non-blocking send either appends to the client's queue or, when the
queue is full, evicts the client (`none`: its channel is closed and it
is collected into `clientsToRemove`). -/
def deliverTo (msg : Message) (p : Peer) : Option Peer :=
  if msg.type = MessageTypeEncrypted ∧ p.username = msg.sender then some p
  else if p.queue.length < p.capacity then some { p with queue := p.queue ++ [msg] }
  else none

/-- The whole broadcast case of `Hub.Run` (lines 122-150): fan the
envelope out to every registered client and drop the evicted ones from
the registry. -/
def broadcastStep (peers : List Peer) (msg : Message) : List Peer :=
  peers.filterMap (deliverTo msg)

/-- Hub state relevant to the unregister event: the registry and the
buffered `Broadcast` channel contents. -/
structure HubState where
  clients : List Peer
  pendingBroadcasts : List Message
  deriving DecidableEq

/-- The `system` "left" envelope built by the unregister case of
`Hub.Run` (lines 113-119). -/
def leaveMessage (username : String) (now : Int) : Message :=
  { type := MessageTypeSystem
    content := "User " ++ username ++ " left the chat"
    sender := SystemSender
    recipient := ""
    timestamp := now }

/-- The unregister case of `Hub.Run` (lines 104-120): delete the client
and close its channel only if it is present, then push the "left"
system envelope onto the `Broadcast` channel unconditionally.  The
second component lists the channels closed by this event. -/
def unregisterStep (s : HubState) (c : Peer) (now : Int) : HubState × List Peer :=
  if c ∈ s.clients then
    ({ clients := s.clients.erase c
       pendingBroadcasts := s.pendingBroadcasts ++ [leaveMessage c.username now] }, [c])
  else
    ({ clients := s.clients
       pendingBroadcasts := s.pendingBroadcasts ++ [leaveMessage c.username now] }, [])

/-- The per-envelope body of `Client.ReadPump` (lines 174-216): fill in
`sender` and `timestamp` when absent; every arm of the type switch then
broadcasts the (re-marshalled) envelope unchanged, so the routed
payload is the same for known and unknown types. -/
def readPumpRoute (clientUsername : String) (now : Int) (msg : Message) : Message :=
  let msg1 := if msg.sender = "" then { msg with sender := clientUsername } else msg
  let msg2 := if msg1.timestamp = 0 then { msg1 with timestamp := now } else msg1
  msg2

/-! ## Key exchange coordinator (client `messaging` package)

`MessageHandler` state: the local username, the `otherClients` Go map
(username → exported public key; modelled as a key-unique association
list with Go's zero-value lookup), the `processedMsgs` dedup set, the
`justSharedKey` cooldown flag, and whether a WebSocket connection is
attached.  The private key is abstracted into the `dec` decryption
parameter of `HandleMessage`; `time.Now`-based formatting enters as the
`fmtTime`/`nowStr` parameters; a `go ... SharePublicKey()` deferred
re-share is reported as a `Bool` ("a share was scheduled") rather than
executed. -/

/-- Coordinator state of a `MessageHandler`. -/
structure HandlerState where
  username : String
  otherClients : List (String × String)
  processedMsgs : List String
  justSharedKey : Bool
  hasConn : Bool
  deriving DecidableEq

/-- Go map read `m[k]`: the stored value, or the zero value `""` when
the key is absent. -/
def mapGet (m : List (String × String)) (k : String) : String :=
  match m.lookup k with
  | some v => v
  | none => ""

/-- Go map write `m[k] = v`: replace the binding if present, otherwise
add it. -/
def mapPut : List (String × String) → String → String → List (String × String)
  | [], k, v => [(k, v)]
  | (k0, v0) :: rest, k, v =>
    if k0 = k then (k, v) :: rest else (k0, v0) :: mapPut rest k v

/-- `MessageHandler.HandleMessage` (client `messaging` package, lines
130-190), for an envelope that already parsed: returns the updated
coordinator state, the display string handed to the caller, and
whether a deferred `SharePublicKey` was scheduled. -/
def HandleMessage (dec : String → Except String String)
    (fmtTime : Int → String) (nowStr : String)
    (h : HandlerState) (msg : Message) : HandlerState × String × Bool :=
  let timeString := if msg.timestamp > 0 then fmtTime msg.timestamp else nowStr
  if msg.type = MessageTypeSystem then
    (h, "[" ++ timeString ++ "] [SYSTEM] " ++ msg.content, false)
  else if msg.type = MessageTypePublicKeyShare then
    if msg.sender ≠ h.username then
      let alreadyHaveKey : Bool := mapGet h.otherClients msg.sender != ""
      ({ h with otherClients := mapPut h.otherClients msg.sender msg.content }, "",
        !alreadyHaveKey && !h.justSharedKey)
    else (h, "", false)
  else if msg.type = MessageTypeEncrypted then
    if msg.sender ≠ h.username then
      if msg.recipient ≠ h.username then (h, "", false)
      else
        let msgID := msg.sender ++ "_" ++ msg.content ++ "_" ++ toString msg.timestamp
        if msgID ∈ h.processedMsgs then (h, "", false)
        else
          let h1 := { h with processedMsgs := msgID :: h.processedMsgs }
          match dec msg.content with
          | .error e =>
            (h1, "[" ++ timeString ++ "] [" ++ msg.sender ++ "] [DECRYPTION FAILED] " ++ e,
              false)
          | .ok decrypted =>
            (h1, "[" ++ timeString ++ "] [" ++ msg.sender ++ "] " ++ decrypted, false)
    else (h, "", false)
  else if msg.type = MessageTypeRequestKeys then
    if msg.sender ≠ h.username then (h, "", true) else (h, "", false)
  else
    (h, "[" ++ timeString ++ "] [" ++ msg.sender ++ "] " ++ msg.content
      ++ " (type: " ++ msg.type ++ ")", false)

/-- The per-recipient loop of `MessageHandler.SendEncryptedMessage`
(lines 83-121): skip the local username, skip recipients whose key
fails to import or whose encryption fails (printed and `continue`d in
Go), and otherwise write the encrypted envelope to the connection —
erroring out immediately when no connection is attached.  Returns the
envelopes written so far and the error that stopped the loop, if
any. -/
def sendLoop {Key : Type} (importKey : String → Except String Key)
    (encFor : String → Key → Except String String)
    (username : String) (hasConn : Bool) (now : Int) (content : String) :
    List (String × String) → List Message × Option String
  | [] => ([], none)
  | (recipientUsername, recipientPublicKeyStr) :: rest =>
    if recipientUsername = username then
      sendLoop importKey encFor username hasConn now content rest
    else
      match importKey recipientPublicKeyStr with
      | .error _ => sendLoop importKey encFor username hasConn now content rest
      | .ok recipientPublicKey =>
        match encFor content recipientPublicKey with
        | .error _ => sendLoop importKey encFor username hasConn now content rest
        | .ok encryptedContent =>
          if hasConn then
            let sent : Message :=
              { type := MessageTypeEncrypted
                content := encryptedContent
                sender := username
                recipient := recipientUsername
                timestamp := now }
            let (writes, e) := sendLoop importKey encFor username hasConn now content rest
            (sent :: writes, e)
          else ([], some "no WebSocket connection available")

/-- `MessageHandler.SendEncryptedMessage` (lines 75-127): with no other
known clients the plaintext is only echoed locally and `nil` is
returned; otherwise the envelope is encrypted and written once per
known recipient.  Result: (envelopes written to the transport, whether
the local echo was printed, error). -/
def SendEncryptedMessage {Key : Type} (importKey : String → Except String Key)
    (encFor : String → Key → Except String String) (now : Int)
    (h : HandlerState) (content : String) : List Message × Bool × Option String :=
  if h.otherClients.length = 0 then ([], true, none)
  else
    match sendLoop importKey encFor h.username h.hasConn now content h.otherClients with
    | (writes, some e) => (writes, false, some e)
    | (writes, none) => (writes, true, none)

/-! ## Concrete instantiations of the abstracted library calls

Used to evaluate the parameterised theorems at concrete inputs: a
trivially correct "cipher" and an injective, delimiter-free text
armouring standing in for base64. -/

/-- Witness cipher: the identity (satisfies the OAEP round-trip
contract). -/
def rsaEncModel (bs : List Byte) : List Byte := bs

/-- Witness decryption for `rsaEncModel`. -/
def rsaDecModel (bs : List Byte) : Except String (List Byte) := .ok bs

/-- Witness text armouring: one character per byte, offset away from
the `'|'` delimiter (code point 124), as base64 output is also
delimiter-free. -/
def b64encModel (bs : List Byte) : List Char :=
  bs.map (fun b => Char.ofNat (b.val + 194))

/-- Witness decoding for `b64encModel`. -/
def b64decModel (cs : List Char) : Except String (List Byte) :=
  .ok (cs.map (fun c => (⟨(c.toNat - 194) % 256, Nat.mod_lt _ (by decide)⟩ : Byte)))

/-- A 181-byte sample plaintext, one byte over the chunk threshold. -/
def samplePlaintext : List Byte := List.replicate 181 (37 : Byte)

/-! ## Lemmas about the chunking helpers -/

/-- Splitting and re-concatenating is the identity (for a positive
chunk size, as in the only call site). -/
theorem splitMessageIntoChunks_flatten (chunkSize : Nat) (hc : chunkSize ≠ 0) :
    ∀ message : List Byte, (splitMessageIntoChunks message chunkSize).flatten = message := by
  have key : ∀ (n : Nat) (message : List Byte), message.length ≤ n →
      (splitMessageIntoChunks message chunkSize).flatten = message := by
    intro n
    induction n with
    | zero =>
      intro message hle
      have hnil : message = [] := List.length_eq_zero.mp (Nat.le_zero.mp hle)
      subst hnil
      simp [splitMessageIntoChunks]
    | succ n ih =>
      intro message hle
      by_cases h0 : message.isEmpty
      · have hnil : message = [] := by
          cases message with
          | nil => rfl
          | cons a l => simp [List.isEmpty] at h0
        subst hnil
        simp [splitMessageIntoChunks]
      · rw [splitMessageIntoChunks, dif_neg h0, dif_neg hc, List.flatten_cons,
          ih (message.drop chunkSize) (by simp only [List.length_drop]; omega),
          List.take_append_drop]
  intro message
  exact key message.length message le_rfl

/-- Every chunk produced by `splitMessageIntoChunks` has at most
`chunkSize` bytes. -/
theorem splitMessageIntoChunks_length_le (chunkSize : Nat) :
    ∀ message : List Byte, ∀ c ∈ splitMessageIntoChunks message chunkSize,
      c.length ≤ chunkSize := by
  have key : ∀ (n : Nat) (message : List Byte), message.length ≤ n →
      ∀ c ∈ splitMessageIntoChunks message chunkSize, c.length ≤ chunkSize := by
    intro n
    induction n with
    | zero =>
      intro message hle
      have hnil : message = [] := List.length_eq_zero.mp (Nat.le_zero.mp hle)
      subst hnil
      intro c hcm
      simp [splitMessageIntoChunks] at hcm
    | succ n ih =>
      intro message hle
      by_cases h0 : message.isEmpty
      · have hnil : message = [] := by
          cases message with
          | nil => rfl
          | cons a l => simp [List.isEmpty] at h0
        subst hnil
        intro c hcm
        simp [splitMessageIntoChunks] at hcm
      · by_cases hc : chunkSize = 0
        · intro c hcm
          rw [splitMessageIntoChunks, dif_neg h0, dif_pos hc] at hcm
          simp at hcm
        · intro c hcm
          rw [splitMessageIntoChunks, dif_neg h0, dif_neg hc] at hcm
          rcases List.mem_cons.mp hcm with hhd | htl
          · subst hhd
            exact le_trans (List.length_take_le chunkSize message) le_rfl
          · exact ih (message.drop chunkSize)
              (by simp only [List.length_drop]; omega) c htl
  intro message
  exact key message.length message le_rfl

/-- A nonempty message splits into at least one chunk. -/
theorem splitMessageIntoChunks_ne_nil (chunkSize : Nat) (hc : chunkSize ≠ 0)
    (message : List Byte) (hm : message ≠ []) :
    splitMessageIntoChunks message chunkSize ≠ [] := by
  have h0 : message.isEmpty = false := by
    cases message with
    | nil => exact absurd rfl hm
    | cons a l => rfl
  rw [splitMessageIntoChunks, dif_neg (by simp [h0]), dif_neg hc]
  exact List.cons_ne_nil _ _

/-- The chunk loop inverts chunkwise encryption when the two library
contracts hold. -/
theorem decryptChunksFrom_map (rsaEnc : List Byte → List Byte)
    (rsaDec : List Byte → Except String (List Byte))
    (b64enc : List Byte → List Char) (b64dec : List Char → Except String (List Byte))
    (hrsa : ∀ m : List Byte, m.length ≤ 190 → rsaDec (rsaEnc m) = .ok m)
    (hb64 : ∀ bs : List Byte, b64dec (b64enc bs) = .ok bs) :
    ∀ chunks : List (List Byte), (∀ c ∈ chunks, c.length ≤ 190) → ∀ i : Nat,
      decryptChunksFrom rsaDec b64dec i (chunks.map (fun c => b64enc (rsaEnc c)))
        = .ok chunks := by
  intro chunks
  induction chunks with
  | nil =>
    intro _ i
    rfl
  | cons c cs ih =>
    intro hlen i
    have h1 := hb64 (rsaEnc c)
    have h2 := hrsa c (hlen c (List.mem_cons_self c cs))
    simp only [List.map_cons, decryptChunksFrom, h1, h2]
    rw [ih (fun x hx => hlen x (List.mem_cons_of_mem c hx)) (i + 1)]
    rfl

/-- C1: for every plaintext and every matching key pair (the OAEP
round-trip contract `hrsa`, stated up to the 190-byte payload limit of
RSA-2048/SHA-256, together with the base64 contracts `hb64`/`hbar`),
`DecryptMessage` inverts `EncryptMessage` without error, on both the
single-chunk path (length at most 180) and the chunked path. -/
theorem decryptMessage_encryptMessage_roundtrip
    (rsaEnc : List Byte → List Byte) (rsaDec : List Byte → Except String (List Byte))
    (b64enc : List Byte → List Char) (b64dec : List Char → Except String (List Byte))
    (hrsa : ∀ m : List Byte, m.length ≤ 190 → rsaDec (rsaEnc m) = .ok m)
    (hb64 : ∀ bs : List Byte, b64dec (b64enc bs) = .ok bs)
    (hbar : ∀ bs : List Byte, '|' ∉ b64enc bs)
    (message : List Byte) :
    DecryptMessage rsaDec b64dec (EncryptMessage rsaEnc b64enc message) = .ok message := by
  by_cases hlen : message.length ≤ maxChunkSize
  · rw [EncryptMessage, if_pos hlen, DecryptMessage, if_neg (hbar (rsaEnc message))]
    have h1 := hb64 (rsaEnc message)
    have h2 := hrsa message (by unfold maxChunkSize at hlen; omega)
    simp only [h1, h2]
  · have hmne : message ≠ [] := by
      intro he
      rw [he] at hlen
      exact hlen (by simp [maxChunkSize])
    have h0 : message.isEmpty = false := by
      cases message with
      | nil => exact absurd rfl hmne
      | cons a l => rfl
    have hcons : splitMessageIntoChunks message maxChunkSize =
        message.take maxChunkSize
          :: splitMessageIntoChunks (message.drop maxChunkSize) maxChunkSize := by
      rw [splitMessageIntoChunks, dif_neg (by simp [h0]), dif_neg (by decide)]
    have hdropne : message.drop maxChunkSize ≠ [] := by
      intro he
      have hlen2 := congrArg List.length he
      simp only [List.length_drop, List.length_nil] at hlen2
      unfold maxChunkSize at hlen2 hlen
      omega
    obtain ⟨b, rest, hbrest⟩ := List.exists_cons_of_ne_nil
      (splitMessageIntoChunks_ne_nil maxChunkSize (by decide) _ hdropne)
    rw [EncryptMessage, if_neg hlen, hcons, hbrest, List.map_cons, List.map_cons]
    have hmem : '|' ∈ List.intercalate ['|']
        (b64enc (rsaEnc (message.take maxChunkSize))
          :: b64enc (rsaEnc b) :: rest.map (fun c => b64enc (rsaEnc c))) := by
      simp [List.intercalate]
    rw [DecryptMessage, if_pos hmem]
    have hnobar : ∀ l ∈ (b64enc (rsaEnc (message.take maxChunkSize))
        :: b64enc (rsaEnc b) :: rest.map (fun c => b64enc (rsaEnc c))), '|' ∉ l := by
      intro l hl
      rcases List.mem_cons.mp hl with h | hl
      · subst h; exact hbar _
      rcases List.mem_cons.mp hl with h | hl
      · subst h; exact hbar _
      obtain ⟨c, _, rfl⟩ := List.mem_map.mp hl
      exact hbar _
    have hsplit := List.splitOn_intercalate _ '|' hnobar (by simp)
    rw [hsplit]
    have hchunks_eq : (b64enc (rsaEnc (message.take maxChunkSize))
        :: b64enc (rsaEnc b) :: rest.map (fun c => b64enc (rsaEnc c)))
        = (message.take maxChunkSize :: b :: rest).map (fun c => b64enc (rsaEnc c)) := by
      simp
    rw [hchunks_eq]
    have hlens : ∀ c ∈ (message.take maxChunkSize :: b :: rest), c.length ≤ 190 := by
      intro c hcm
      have hmem2 : c ∈ splitMessageIntoChunks message maxChunkSize := by
        rw [hcons, hbrest]
        exact hcm
      have h180 := splitMessageIntoChunks_length_le maxChunkSize message c hmem2
      unfold maxChunkSize at h180
      omega
    rw [decryptChunksFrom_map rsaEnc rsaDec b64enc b64dec hrsa hb64 _ hlens 0]
    have hflat : (message.take maxChunkSize :: b :: rest).flatten = message := by
      have hgen := splitMessageIntoChunks_flatten maxChunkSize (by decide) message
      rw [hcons, hbrest] at hgen
      exact hgen
    simp [hflat]

/-- The witness decoding inverts the witness armouring. -/
theorem b64decModel_b64encModel (bs : List Byte) : b64decModel (b64encModel bs) = .ok bs := by
  have h3 : ∀ b : Byte, (Char.ofNat (b.val + 194)).toNat = b.val + 194 := by
    set_option maxRecDepth 2048 in decide
  unfold b64decModel b64encModel
  rw [List.map_map]
  have h : ∀ b ∈ bs,
      ((fun c => (⟨(c.toNat - 194) % 256, Nat.mod_lt _ (by decide)⟩ : Byte)) ∘
        (fun b : Byte => Char.ofNat (b.val + 194))) b = id b := by
    intro b _
    have hlt := b.isLt
    apply Fin.ext
    simp only [Function.comp, id, h3 b]
    omega
  rw [List.map_congr_left h, List.map_id]

/-- The witness armouring never produces the `'|'` delimiter. -/
theorem bar_not_mem_b64encModel (bs : List Byte) : '|' ∉ b64encModel bs := by
  intro hmem
  unfold b64encModel at hmem
  simp only [List.mem_map] at hmem
  obtain ⟨b, _, hb⟩ := hmem
  have h2 := congrArg Char.toNat hb
  have h3 : ∀ b : Byte, (Char.ofNat (b.val + 194)).toNat = b.val + 194 := by
    set_option maxRecDepth 2048 in decide
  have h124 : Char.toNat '|' = 124 := rfl
  rw [h3 b, h124] at h2
  omega

/-- Witness for C1: the round trip evaluated on a concrete 181-byte
plaintext with a concrete cipher and armouring satisfying the library
contracts. -/
theorem decryptMessage_encryptMessage_roundtrip_witness :
    DecryptMessage rsaDecModel b64decModel
      (EncryptMessage rsaEncModel b64encModel samplePlaintext) = .ok samplePlaintext :=
  decryptMessage_encryptMessage_roundtrip rsaEncModel rsaDecModel b64encModel b64decModel
    (fun _ _ => rfl) b64decModel_b64encModel bar_not_mem_b64encModel samplePlaintext

/-! ## Hub broadcast and unregister theorems -/

/-- C2: when an `encrypted_message` envelope is broadcast, every
registered peer whose username equals the envelope's sender is kept
with its outbound queue untouched (the envelope is never placed in its
queue), and every other registered peer with queue capacity available
receives the envelope at the back of its queue. -/
theorem broadcast_encrypted_not_echoed (peers : List Peer) (msg : Message)
    (henc : msg.type = MessageTypeEncrypted) :
    (∀ p ∈ peers, p.username = msg.sender →
      deliverTo msg p = some p ∧ p ∈ broadcastStep peers msg) ∧
    (∀ p ∈ peers, p.username ≠ msg.sender → p.queue.length < p.capacity →
      deliverTo msg p = some { p with queue := p.queue ++ [msg] } ∧
      { p with queue := p.queue ++ [msg] } ∈ broadcastStep peers msg) := by
  constructor
  · intro p hp hu
    have hd : deliverTo msg p = some p := by
      rw [deliverTo, if_pos ⟨henc, hu⟩]
    exact ⟨hd, List.mem_filterMap.mpr ⟨p, hp, hd⟩⟩
  · intro p hp hu hq
    have hd : deliverTo msg p = some { p with queue := p.queue ++ [msg] } := by
      rw [deliverTo, if_neg (fun hcon => hu hcon.2), if_pos hq]
    exact ⟨hd, List.mem_filterMap.mpr ⟨p, hp, hd⟩⟩

/-- Witness for C2: a two-peer registry with the sender and one other
peer with room; the sender keeps its queue, the other peer gets the
envelope. -/
theorem broadcast_encrypted_not_echoed_witness :
    (deliverTo
        { type := "encrypted_message", content := "CT", sender := "alice",
          recipient := "bob", timestamp := 7 }
        { username := "alice", capacity := 4, queue := [] } =
      some { username := "alice", capacity := 4, queue := [] }) ∧
    (({ username := "bob", capacity := 4,
        queue := [{ type := "encrypted_message", content := "CT", sender := "alice",
                    recipient := "bob", timestamp := 7 }] } : Peer) ∈
      broadcastStep
        [{ username := "alice", capacity := 4, queue := [] },
         { username := "bob", capacity := 4, queue := [] }]
        { type := "encrypted_message", content := "CT", sender := "alice",
          recipient := "bob", timestamp := 7 }) := by
  have h := broadcast_encrypted_not_echoed
    [{ username := "alice", capacity := 4, queue := [] },
     { username := "bob", capacity := 4, queue := [] }]
    { type := "encrypted_message", content := "CT", sender := "alice",
      recipient := "bob", timestamp := 7 } rfl
  refine ⟨(h.1 _ (by simp) rfl).1, ?_⟩
  exact (h.2 { username := "bob", capacity := 4, queue := [] }
    (by simp) (by decide) (by decide)).2

/-- C4: during a broadcast, a registered peer that is not the skipped
sender and whose queue is full is evicted (it contributes nothing to
the new registry), and every entry of the resulting registry is either
the skipped sender, kept unchanged, or a peer with room that received
the envelope at the back of its queue. -/
theorem broadcast_full_queue_evicted (peers : List Peer) (msg : Message) :
    (∀ p ∈ peers, ¬(msg.type = MessageTypeEncrypted ∧ p.username = msg.sender) →
      p.capacity ≤ p.queue.length → deliverTo msg p = none) ∧
    (∀ q ∈ broadcastStep peers msg,
      (q ∈ peers ∧ msg.type = MessageTypeEncrypted ∧ q.username = msg.sender) ∨
      (∃ p, p ∈ peers ∧ p.queue.length < p.capacity ∧
        q = { p with queue := p.queue ++ [msg] })) := by
  constructor
  · intro p _ hskip hfull
    rw [deliverTo, if_neg hskip, if_neg (by omega)]
  · intro q hq
    obtain ⟨p, hp, hd⟩ := List.mem_filterMap.mp hq
    rw [deliverTo] at hd
    by_cases hcon : msg.type = MessageTypeEncrypted ∧ p.username = msg.sender
    · rw [if_pos hcon] at hd
      injection hd with hd
      subst hd
      exact Or.inl ⟨hp, hcon⟩
    · rw [if_neg hcon] at hd
      by_cases hroom : p.queue.length < p.capacity
      · rw [if_pos hroom] at hd
        injection hd with hd
        subst hd
        exact Or.inr ⟨p, hp, hroom, rfl⟩
      · rw [if_neg hroom] at hd
        exact absurd hd (by simp)

/-- Witness for C4: a saturated peer (capacity 1, one queued envelope)
is dropped by the fan-out while a peer with room still receives the
envelope. -/
theorem broadcast_full_queue_evicted_witness :
    deliverTo
      { type := "chat", content := "m", sender := "carol", recipient := "", timestamp := 3 }
      { username := "slow", capacity := 1,
        queue := [{ type := "system", content := "old", sender := "System",
                    recipient := "", timestamp := 1 }] } = none := by
  exact (broadcast_full_queue_evicted
    [{ username := "slow", capacity := 1,
       queue := [{ type := "system", content := "old", sender := "System",
                   recipient := "", timestamp := 1 }] },
     { username := "fast", capacity := 4, queue := [] }]
    { type := "chat", content := "m", sender := "carol", recipient := "",
      timestamp := 3 }).1
    _ (by simp) (by decide) (by decide)

/-- Counterexample for C5 as stated: processing an `Unregister` event
for a peer that is not in the registry is not free of observable side
effects — the hub still pushes a `system` "left" envelope onto the
broadcast channel (the leave broadcast in `Hub.Run` is outside the
presence check). -/
theorem unregister_absent_broadcasts_left :
    (({ username := "ghost", capacity := 1, queue := [] } : Peer) ∉
      (⟨[], []⟩ : HubState).clients) ∧
    HubState.pendingBroadcasts
        (unregisterStep ⟨[], []⟩ { username := "ghost", capacity := 1, queue := [] } 5).1
      ≠ (⟨[], []⟩ : HubState).pendingBroadcasts := by
  constructor
  · simp
  · simp [unregisterStep, leaveMessage]

/-- C5 (amended): processing an `Unregister` event for a peer not in
the registry leaves the registry unchanged (no panic, count unchanged)
and closes no queue, but it still appends the `system` "left" envelope
for that peer to the broadcast channel — the leave broadcast is
unconditional in the code. -/
theorem unregister_absent_registry_unchanged (s : HubState) (c : Peer) (now : Int)
    (habs : c ∉ s.clients) :
    (unregisterStep s c now).1.clients = s.clients ∧
    (unregisterStep s c now).2 = [] ∧
    (unregisterStep s c now).1.pendingBroadcasts =
      s.pendingBroadcasts ++ [leaveMessage c.username now] := by
  rw [unregisterStep, if_neg habs]
  exact ⟨rfl, rfl, rfl⟩

/-- Witness for the amended C5 at a concrete state: a nonempty registry
that does not contain the unregistered peer. -/
theorem unregister_absent_registry_unchanged_witness :
    (unregisterStep
        ⟨[{ username := "alice", capacity := 4, queue := [] }], []⟩
        { username := "ghost", capacity := 1, queue := [] } 5).1.clients =
      [{ username := "alice", capacity := 4, queue := [] }] ∧
    (unregisterStep
        ⟨[{ username := "alice", capacity := 4, queue := [] }], []⟩
        { username := "ghost", capacity := 1, queue := [] } 5).2 = [] ∧
    (unregisterStep
        ⟨[{ username := "alice", capacity := 4, queue := [] }], []⟩
        { username := "ghost", capacity := 1, queue := [] } 5).1.pendingBroadcasts =
      [] ++ [leaveMessage "ghost" 5] :=
  unregister_absent_registry_unchanged
    ⟨[{ username := "alice", capacity := 4, queue := [] }], []⟩
    { username := "ghost", capacity := 1, queue := [] } 5 (by decide)

/-! ## Coordinator (`MessageHandler`) theorems -/

/-- C3: for an `encrypted_message` envelope addressed to the local
identity with a fresh `sender|content|timestamp` fingerprint and a
decryptable content, the first `HandleMessage` call marks the
fingerprint seen and surfaces the decrypted display string, and a
second call on the very same envelope returns the empty string with the
state unchanged. -/
theorem handleMessage_encrypted_idempotent
    (dec : String → Except String String) (fmtTime : Int → String) (nowStr : String)
    (h : HandlerState) (msg : Message) (d : String)
    (hty : msg.type = MessageTypeEncrypted)
    (hs : msg.sender ≠ h.username) (hr : msg.recipient = h.username)
    (hnew : (msg.sender ++ "_" ++ msg.content ++ "_" ++ toString msg.timestamp)
      ∉ h.processedMsgs)
    (hdec : dec msg.content = .ok d) :
    HandleMessage dec fmtTime nowStr h msg =
      ({ h with processedMsgs :=
          (msg.sender ++ "_" ++ msg.content ++ "_" ++ toString msg.timestamp)
            :: h.processedMsgs },
        "[" ++ (if msg.timestamp > 0 then fmtTime msg.timestamp else nowStr) ++ "] ["
          ++ msg.sender ++ "] " ++ d, false) ∧
    HandleMessage dec fmtTime nowStr
      { h with processedMsgs :=
          (msg.sender ++ "_" ++ msg.content ++ "_" ++ toString msg.timestamp)
            :: h.processedMsgs } msg =
      ({ h with processedMsgs :=
          (msg.sender ++ "_" ++ msg.content ++ "_" ++ toString msg.timestamp)
            :: h.processedMsgs },
        "", false) := by
  constructor
  · simp [HandleMessage, hty, MessageTypeSystem, MessageTypePublicKeyShare,
      MessageTypeEncrypted, MessageTypeRequestKeys, hs, hr, hnew, hdec]
  · simp [HandleMessage, hty, MessageTypeSystem, MessageTypePublicKeyShare,
      MessageTypeEncrypted, MessageTypeRequestKeys, hs, hr]

/-- Witness for C3: the second delivery of a concrete already-seen
envelope surfaces nothing and leaves the dedup set as it is. -/
theorem handleMessage_encrypted_idempotent_witness :
    HandleMessage (fun _ => .ok "hi") (fun _ => "12:00:07") "now"
      { username := "alice", otherClients := [],
        processedMsgs := [("bob" ++ "_" ++ "CT" ++ "_" ++ toString (42 : Int))],
        justSharedKey := false, hasConn := true }
      { type := "encrypted_message", content := "CT", sender := "bob",
        recipient := "alice", timestamp := 42 } =
      ({ username := "alice", otherClients := [],
         processedMsgs := [("bob" ++ "_" ++ "CT" ++ "_" ++ toString (42 : Int))],
         justSharedKey := false, hasConn := true }, "", false) :=
  (handleMessage_encrypted_idempotent (fun _ => .ok "hi") (fun _ => "12:00:07") "now"
    { username := "alice", otherClients := [], processedMsgs := [],
      justSharedKey := false, hasConn := true }
    { type := "encrypted_message", content := "CT", sender := "bob",
      recipient := "alice", timestamp := 42 } "hi"
    rfl (by decide) rfl (by simp) rfl).2

/-- C6: an `encrypted_message` envelope from another sender whose
recipient is not the local identity is ignored: the empty display
string is returned, the whole coordinator state (in particular the
dedup set) is unchanged, and the result does not depend on the
decryption function — no decryption is attempted. -/
theorem handleMessage_wrong_recipient_ignored
    (fmtTime : Int → String) (nowStr : String) (h : HandlerState) (msg : Message)
    (hty : msg.type = MessageTypeEncrypted)
    (hs : msg.sender ≠ h.username) (hr : msg.recipient ≠ h.username) :
    ∀ dec : String → Except String String,
      HandleMessage dec fmtTime nowStr h msg = (h, "", false) := by
  intro dec
  simp [HandleMessage, hty, MessageTypeSystem, MessageTypePublicKeyShare,
    MessageTypeEncrypted, MessageTypeRequestKeys, hs, hr]

/-- Witness for C6 at a concrete misaddressed envelope. -/
theorem handleMessage_wrong_recipient_ignored_witness :
    HandleMessage (fun _ => .ok "junk") (fun _ => "t") "n"
      { username := "alice", otherClients := [], processedMsgs := [],
        justSharedKey := false, hasConn := true }
      { type := "encrypted_message", content := "CT", sender := "bob",
        recipient := "carol", timestamp := 1 } =
      ({ username := "alice", otherClients := [], processedMsgs := [],
         justSharedKey := false, hasConn := true }, "", false) :=
  handleMessage_wrong_recipient_ignored (fun _ => "t") "n"
    { username := "alice", otherClients := [], processedMsgs := [],
      justSharedKey := false, hasConn := true }
    { type := "encrypted_message", content := "CT", sender := "bob",
      recipient := "carol", timestamp := 1 }
    rfl (by decide) (by decide) (fun _ => .ok "junk")

/-- C8: an envelope whose type is none of the four known values is not
rejected: `HandleMessage` surfaces the generic display string carrying
the sender, the content and the unknown type (and changes nothing
else), and the server read loop broadcasts such an envelope unchanged
(its type switch forwards every arm identically). -/
theorem handleMessage_unknown_type_forwarded
    (fmtTime : Int → String) (nowStr : String) (h : HandlerState) (msg : Message)
    (u : String) (now : Int)
    (h1 : msg.type ≠ MessageTypeSystem) (h2 : msg.type ≠ MessageTypePublicKeyShare)
    (h3 : msg.type ≠ MessageTypeEncrypted) (h4 : msg.type ≠ MessageTypeRequestKeys)
    (hsender : msg.sender ≠ "") (hts : msg.timestamp ≠ 0) :
    (∀ dec : String → Except String String,
      HandleMessage dec fmtTime nowStr h msg =
        (h, "[" ++ (if msg.timestamp > 0 then fmtTime msg.timestamp else nowStr) ++ "] ["
          ++ msg.sender ++ "] " ++ msg.content ++ " (type: " ++ msg.type ++ ")", false)) ∧
    readPumpRoute u now msg = msg := by
  constructor
  · intro dec
    simp [HandleMessage, h1, h2, h3, h4]
  · simp [readPumpRoute, hsender, hts]

/-- Witness for C8 with the out-of-switch type `user_info`. -/
theorem handleMessage_unknown_type_forwarded_witness :
    HandleMessage (fun _ => .ok "x") (fun _ => "t") "n"
      { username := "alice", otherClients := [], processedMsgs := [],
        justSharedKey := false, hasConn := true }
      { type := "user_info", content := "c", sender := "bob",
        recipient := "", timestamp := 5 } =
      ({ username := "alice", otherClients := [], processedMsgs := [],
         justSharedKey := false, hasConn := true },
        "[" ++ (if (5 : Int) > 0 then (fun _ : Int => "t") (5 : Int) else "n") ++ "] ["
          ++ "bob" ++ "] " ++ "c" ++ " (type: " ++ "user_info" ++ ")", false) ∧
    readPumpRoute "srv" 9
      { type := "user_info", content := "c", sender := "bob",
        recipient := "", timestamp := 5 } =
      { type := "user_info", content := "c", sender := "bob",
        recipient := "", timestamp := 5 } :=
  ⟨(handleMessage_unknown_type_forwarded (fun _ => "t") "n"
      { username := "alice", otherClients := [], processedMsgs := [],
        justSharedKey := false, hasConn := true }
      { type := "user_info", content := "c", sender := "bob",
        recipient := "", timestamp := 5 } "srv" 9
      (by decide) (by decide) (by decide) (by decide) (by decide) (by decide)).1
    (fun _ => .ok "x"),
   (handleMessage_unknown_type_forwarded (fun _ => "t") "n"
      { username := "alice", otherClients := [], processedMsgs := [],
        justSharedKey := false, hasConn := true }
      { type := "user_info", content := "c", sender := "bob",
        recipient := "", timestamp := 5 } "srv" 9
      (by decide) (by decide) (by decide) (by decide) (by decide) (by decide)).2⟩

/-- C9: with an empty table of other clients' public keys,
`SendEncryptedMessage` writes nothing to the transport, echoes the
plaintext locally, and returns no error — regardless of the key import
and encryption functions. -/
theorem sendEncryptedMessage_no_peers_no_writes {Key : Type}
    (importKey : String → Except String Key) (encFor : String → Key → Except String String)
    (now : Int) (h : HandlerState) (content : String)
    (hempty : h.otherClients = []) :
    SendEncryptedMessage importKey encFor now h content = ([], true, none) := by
  simp [SendEncryptedMessage, hempty]

/-- Witness for C9 at a concrete coordinator state with no known
peers. -/
theorem sendEncryptedMessage_no_peers_no_writes_witness :
    SendEncryptedMessage (fun _ => (.ok () : Except String Unit))
      (fun _ _ => (.ok "CT" : Except String String)) 7
      { username := "alice", otherClients := [], processedMsgs := [],
        justSharedKey := false, hasConn := true } "hello" = ([], true, none) :=
  sendEncryptedMessage_no_peers_no_writes (fun _ => .ok ()) (fun _ _ => .ok "CT") 7
    { username := "alice", otherClients := [], processedMsgs := [],
      justSharedKey := false, hasConn := true } "hello" rfl

/-- C10: a `public_key_share` or `request_keys` envelope whose sender
is the local identity is ignored entirely: no key is stored, no
deferred re-share is scheduled, the state is unchanged, and the empty
display string is returned — the hub echoing handshake traffic back to
its sender cannot start a self-share loop. -/
theorem handleMessage_self_handshake_ignored
    (dec : String → Except String String) (fmtTime : Int → String) (nowStr : String)
    (h : HandlerState) (msg : Message)
    (hty : msg.type = MessageTypePublicKeyShare ∨ msg.type = MessageTypeRequestKeys)
    (hs : msg.sender = h.username) :
    HandleMessage dec fmtTime nowStr h msg = (h, "", false) := by
  rcases hty with hty | hty
  · simp [HandleMessage, hty, MessageTypeSystem, MessageTypePublicKeyShare, hs]
  · simp [HandleMessage, hty, MessageTypeSystem, MessageTypePublicKeyShare,
      MessageTypeEncrypted, MessageTypeRequestKeys, hs]

/-- Witness for C10: both handshake types, echoed back to their own
sender, are ignored. -/
theorem handleMessage_self_handshake_ignored_witness :
    HandleMessage (fun _ => .ok "x") (fun _ => "t") "n"
      { username := "alice", otherClients := [], processedMsgs := [],
        justSharedKey := false, hasConn := true }
      { type := "public_key_share", content := "KEY", sender := "alice",
        recipient := "", timestamp := 2 } =
      ({ username := "alice", otherClients := [], processedMsgs := [],
         justSharedKey := false, hasConn := true }, "", false) ∧
    HandleMessage (fun _ => .ok "x") (fun _ => "t") "n"
      { username := "alice", otherClients := [], processedMsgs := [],
        justSharedKey := false, hasConn := true }
      { type := "request_keys", content := "", sender := "alice",
        recipient := "", timestamp := 3 } =
      ({ username := "alice", otherClients := [], processedMsgs := [],
         justSharedKey := false, hasConn := true }, "", false) :=
  ⟨handleMessage_self_handshake_ignored (fun _ => .ok "x") (fun _ => "t") "n"
      { username := "alice", otherClients := [], processedMsgs := [],
        justSharedKey := false, hasConn := true }
      { type := "public_key_share", content := "KEY", sender := "alice",
        recipient := "", timestamp := 2 } (Or.inl rfl) rfl,
   handleMessage_self_handshake_ignored (fun _ => .ok "x") (fun _ => "t") "n"
      { username := "alice", otherClients := [], processedMsgs := [],
        justSharedKey := false, hasConn := true }
      { type := "request_keys", content := "", sender := "alice",
        recipient := "", timestamp := 3 } (Or.inr rfl) rfl⟩

/-! ## Public-key import theorem -/

/-- C7: a key string that fails base64 decoding, or decodes but fails
both the SPKI and the PKCS1 parse, makes `ImportPublicKey` return an
error — it never yields a usable key object for such input. -/
theorem importPublicKey_unparseable_fails {AnyKey RSAKey : Type}
    (b64decode : String → Except String (List Byte))
    (parsePKIX : List Byte → Except String AnyKey)
    (parsePKCS1 : List Byte → Except String RSAKey)
    (asRSA : AnyKey → Option RSAKey) (injectRSA : RSAKey → AnyKey)
    (keyStr : String)
    (hfail : (∃ e, b64decode keyStr = .error e) ∨
      (∃ bs, b64decode keyStr = .ok bs ∧
        (∃ e1, parsePKIX bs = .error e1) ∧ (∃ e2, parsePKCS1 bs = .error e2))) :
    ∃ e, ImportPublicKey b64decode parsePKIX parsePKCS1 asRSA injectRSA keyStr
      = .error e := by
  rcases hfail with ⟨e, he⟩ | ⟨bs, hbs, ⟨e1, he1⟩, ⟨e2, he2⟩⟩
  · exact ⟨"failed to decode public key: " ++ e, by simp [ImportPublicKey, he]⟩
  · exact ⟨"failed to parse public key (tried both SPKI and PKCS1): " ++ e2,
      by simp [ImportPublicKey, hbs, he1, he2]⟩

/-- Witness for C7: with a decoder and parsers behaving like the Go
standard library on these inputs, both `"invalid-base64-key"` (decode
failure: `-` is outside the base64 alphabet) and `""` (decodes to zero
bytes that parse as neither SPKI nor PKCS1) are rejected. -/
theorem importPublicKey_unparseable_fails_witness :
    (∃ e, ImportPublicKey
      (fun s => if s = "" then (.ok [] : Except String (List Byte))
        else .error "illegal base64 data at input byte 7")
      (fun _ => (.error "asn1: syntax error" : Except String Unit))
      (fun _ => (.error "asn1: syntax error" : Except String Unit))
      (fun u => some u) (fun u => u) "invalid-base64-key" = .error e) ∧
    (∃ e, ImportPublicKey
      (fun s => if s = "" then (.ok [] : Except String (List Byte))
        else .error "illegal base64 data at input byte 7")
      (fun _ => (.error "asn1: syntax error" : Except String Unit))
      (fun _ => (.error "asn1: syntax error" : Except String Unit))
      (fun u => some u) (fun u => u) "" = .error e) :=
  ⟨importPublicKey_unparseable_fails _ _ _ _ _ _
      (Or.inl ⟨"illegal base64 data at input byte 7", by simp⟩),
   importPublicKey_unparseable_fails _ _ _ _ _ _
      (Or.inr ⟨[], by simp, ⟨"asn1: syntax error", rfl⟩, ⟨"asn1: syntax error", rfl⟩⟩)⟩

end Chapp

